import Mathlib

/-!
Verification of the super-router dispatch core: path normalization, the
path-pattern matcher, the deterministic route trie (RouteTree), the Router
middleware pair, the Request/Response value objects' redaction rendering,
and the two-stack App dispatcher.

Strings are embedded as `List Char` (`Str`) so that every operation is a
structural recursion the kernel can evaluate.  Errors thrown by handlers
are identified by natural numbers; handler behavior is abstracted to a
success/failure outcome, which is all the dispatch claims observe.
-/

/-- Strings of the JS source, embedded as character lists. -/
abbrev Str := List Char

/-- Coerce a Lean string literal to the embedded string type. -/
def str (s : String) : Str := s.data

/-- Lower-case a string character by character (ASCII, as in JS `toLowerCase`
for the identifiers appearing in routes). -/
def lowerStr (s : Str) : Str := s.map Char.toLower

/-- Modelled from the spec: `utils.js` is not in src.  Splitting a path into
its delimiter-separated segments, dropping empty segments (leading slash,
doubled slashes).  Accumulator-based so it is a single structural recursion. -/
def splitSegsAux : Str → Str → List Str
  | [], acc => if acc = [] then [] else [acc.reverse]
  | c :: rest, acc =>
    if c = '/' then
      (if acc = [] then splitSegsAux rest [] else acc.reverse :: splitSegsAux rest [])
    else
      splitSegsAux rest (c :: acc)

/-- Segments of a path, split on the `/` delimiter. -/
def splitSegs (p : Str) : List Str := splitSegsAux p []

/-- Modelled from the spec: `utils.normalizePath` is not in src; its behavior
is pinned by §8 (`/WoNkY/` normalizes to `/wonky`) and the Request tests:
lower-case the path and strip a trailing delimiter (keeping a bare root). -/
def normalizePath (p : Str) : Str :=
  let low := lowerStr p
  if 1 < low.length ∧ low.getLast? = some '/' then low.dropLast else low

/-- Association-list lookup (the embedded view of a JS object / Map read). -/
def lookupA {κ α : Type} [DecidableEq κ] : List (κ × α) → κ → Option α
  | [], _ => none
  | (k', v) :: rest, k => if k' = k then some v else lookupA rest k

/-- Association-list update, inserting at the end when the key is absent
(the embedded view of a JS object / Map write). -/
def setA {κ α : Type} [DecidableEq κ] : List (κ × α) → κ → α → List (κ × α)
  | [], k, v => [(k, v)]
  | (k', v') :: rest, k, v =>
    if k' = k then (k, v) :: rest else (k', v') :: setA rest k v

/-- Accepted HTTP verbs (§6); `all` is the unconstrained marker. -/
inductive Method where
  | get | post | put | delete | patch | head | options | all
deriving DecidableEq, Repr

/-- Modelled from the spec: `PathPattern.js` is not in src.  A compiled path
specifier (§4.1): literal segment, named parameter, or single-segment
wildcard.  Optional groups are carried separately on the compiled pattern. -/
inductive PSeg where
  | lit (s : Str)
  | par (name : Str)
  | wild
deriving DecidableEq, Repr

/-- Classify one template segment: `*` is a wildcard, a leading `:` marks a
named parameter, anything else is a literal stored lower-cased. -/
def segSpec (seg : Str) : PSeg :=
  if seg = ['*'] then PSeg.wild
  else if seg.head? = some ':' then PSeg.par seg.tail
  else PSeg.lit (lowerStr seg)

/-- Compile the segments of a template string into path specifiers. -/
def compileSegs (p : Str) : List PSeg := (splitSegs p).map segSpec

/-- Split a string at the first occurrence of a character, returning the text
before it and (when found) the text after it. -/
def breakAt : Str → Char → Str × Option Str
  | [], _ => ([], none)
  | c :: rest, d =>
    if c = d then ([], some rest)
    else
      let (a, b) := breakAt rest d
      (c :: a, b)

/-- Modelled from the spec: `PathPattern.js` is not in src.  A compiled
pattern (§4.1): ordered specifiers plus at most one trailing optional group
(the remainder of the template after `(`, treated as a unit). -/
structure PathPattern where
  specs : List PSeg
  opt : Option (List PSeg)
deriving DecidableEq, Repr

/-- Compile a template into a pattern: the text before the first `(` gives
the mandatory specifiers, the remainder (with `)` stripped) the optional
group. -/
def PathPattern.compile (p : Str) : PathPattern :=
  let (main, og) := breakAt p '('
  ⟨compileSegs main, og.map (fun o => compileSegs (o.filter (· ≠ ')')))⟩

/-- Match specifiers against candidate segments with no optional group left:
literal needs case-insensitive equality, a parameter captures one segment by
name, a wildcard consumes one segment uncaptured; a count mismatch fails. -/
def PathPattern.matchList : List PSeg → List Str → Option (List (Str × Str))
  | [], [] => some []
  | [], _ :: _ => none
  | PSeg.lit s :: ss, seg :: rest =>
    if s = lowerStr seg then PathPattern.matchList ss rest else none
  | PSeg.par n :: ss, seg :: rest =>
    (PathPattern.matchList ss rest).map (fun ps => (n, seg) :: ps)
  | PSeg.wild :: ss, _ :: rest => PathPattern.matchList ss rest
  | _ :: _, [] => none

/-- Walk the mandatory specifiers left to right; at the group boundary a
match succeeds with the group absent when no segments remain, and otherwise
continues inside the optional group under the same rules (§4.1). -/
def PathPattern.matchFrom (opt : Option (List PSeg)) :
    List PSeg → List Str → Option (List (Str × Str))
  | [], [] => some []
  | [], segs@(_ :: _) =>
    match opt with
    | some os => PathPattern.matchList os segs
    | none => none
  | PSeg.lit s :: ss, seg :: rest =>
    if s = lowerStr seg then PathPattern.matchFrom opt ss rest else none
  | PSeg.par n :: ss, seg :: rest =>
    (PathPattern.matchFrom opt ss rest).map (fun ps => (n, seg) :: ps)
  | PSeg.wild :: ss, _ :: rest => PathPattern.matchFrom opt ss rest
  | _ :: _, [] => none

/-- `match(path)` of a compiled pattern (§4.1): `some params` when matched. -/
def PathPattern.matchPath (pt : PathPattern) (path : Str) :
    Option (List (Str × Str)) :=
  PathPattern.matchFrom pt.opt pt.specs (splitSegs path)

/-- Modelled from the spec: what a route handler does when actually invoked
(§9 outcome normalization): complete, or fail with an error value.  Errors
are identified by naturals; a thrown value and a rejected async result are
the same failure outcome. -/
inductive Outcome where
  | ok
  | err (e : Nat)
deriving DecidableEq, Repr

/-- Modelled from the spec: `Route.js` is not in src.  A handler unit (§3):
an optional method constraint, an optional path scope (the raw template,
compiled at evaluation time), the handler's outcome, and an identity used
by the execution traces. -/
structure Route where
  rid : Nat
  method : Method
  path : Option Str
  behave : Outcome
deriving DecidableEq, Repr

/-- Redaction descriptor (§6): header keys and body keys to mask when
rendering to string. -/
structure Sensitive where
  headers : Option (List Str)
  body : Option (List Str)
deriving DecidableEq, Repr

/-- The Request value object (src/lib/Request.js): normalized path, the
immutable pre-normalization snapshot, normalized method, lower-case-keyed
headers, a body viewed as a key/value map (the shape the redaction renderer
masks), route parameters, the matched-route slot, and the optional redaction
descriptor. -/
structure Request where
  path : Str
  originalPath : Str
  method : Method
  headers : List (Str × Str)
  body : List (Str × Str)
  routeParams : List (Str × Str)
  matchedRoute : Option Route
  sensitive : Option Sensitive
deriving DecidableEq, Repr

/-- Constructor options for Request (src/lib/Request.js constructor). -/
structure ReqOptions where
  path : Str
  originalPath : Option Str
  method : Method
  headers : List (Str × Str)
deriving DecidableEq, Repr

/-- The Request constructor (src/lib/Request.js lines 36-56): the stored path
goes through the `path` setter and is normalized; `_originalPath` is
`options.originalPath || options.path`, i.e. the raw input path when no
(non-empty) originalPath is supplied; header keys are lower-cased. -/
def Request.build (o : ReqOptions) : Request :=
  { path := normalizePath o.path
    originalPath :=
      match o.originalPath with
      | some s => if s = [] then o.path else s
      | none => o.path
    method := o.method
    headers := o.headers.map (fun kv => (lowerStr kv.1, kv.2))
    body := []
    routeParams := []
    matchedRoute := none
    sensitive := none }

/-- The `path` setter (src/lib/Request.js lines 84-89): normalizes the new
path; `_originalPath` is untouched. -/
def Request.setPath (r : Request) (p : Str) : Request :=
  { r with path := normalizePath p }

/-- Modelled from the spec: `Response.js` is not in src.  The Response value
object (§6): integer status code defaulting to 200, the same header and
body contract as Request, a one-way ended flag, and the same redaction
descriptor. -/
structure Response where
  statusCode : Nat
  headers : List (Str × Str)
  body : List (Str × Str)
  ended : Bool
  sensitive : Option Sensitive
deriving DecidableEq, Repr

/-- The freshly constructed Response of step 2 of `processRequest` (§4.4):
default status 200, empty headers, empty body. -/
def Response.fresh : Response :=
  { statusCode := 200, headers := [], body := [], ended := false, sensitive := none }

/-- Modelled from the spec: `Route.js` is not in src.  The scope check of
Route.execute (§4.2): in scope when the method is the unconstrained marker
or equals the request's method, and the pattern (when set) matches the
request's path. -/
def Route.inScope (r : Route) (req : Request) : Bool :=
  (r.method == Method.all || r.method == req.method) &&
  (match r.path with
   | none => true
   | some p => ((PathPattern.compile p).matchPath req.path).isSome)

/-- Modelled from the spec: `Route.js` is not in src.  `Route.execute`
(§4.2), with src/test/App.test.js lines 269-287 pinning the error-mode skip:
out of scope, the handler is not invoked and the context's current error
(when present) continues unchanged — the scoped skip neither fails a regular
dispatch nor swallows an error; in scope, the handler runs and yields its
outcome.  Returns (handler ran, propagated failure). -/
def Route.execute (r : Route) (req : Request) (err : Option Nat) :
    Bool × Option Nat :=
  if r.inScope req then
    match r.behave with
    | Outcome.ok => (true, none)
    | Outcome.err e => (true, some e)
  else
    (false, err)

/-- Modelled from the spec: `RouteTree.js` is not in src.  A trie node (§3):
literal-keyed children, at most one parameter-slot child carrying its
parameter name, and a leaf mapping methods to routes. -/
inductive RTree where
  | mk : List (Str × RTree) → Option (Str × RTree) → List (Method × Route) → RTree

/-- The literal-keyed children of a trie node. -/
def RTree.literals : RTree → List (Str × RTree)
  | RTree.mk ls _ _ => ls

/-- The parameter-slot child of a trie node. -/
def RTree.param : RTree → Option (Str × RTree)
  | RTree.mk _ po _ => po

/-- The method-keyed leaf of a trie node. -/
def RTree.leaf : RTree → List (Method × Route)
  | RTree.mk _ _ lf => lf

/-- An empty trie node. -/
def RTree.empty : RTree := RTree.mk [] none []

/-- Configuration errors raised while wiring routes (§7). -/
inductive AddErr where
  | typeError
  | configuration
  | conflict
deriving DecidableEq, Repr

/-- Modelled from the spec: `RouteTree.js` is not in src.  Insert a compiled
segment list into the trie (§4.3): walk/create nodes, a literal segment
descends into the literal child of that key, a parameter segment descends
into the parameter slot and conflicts when the slot already carries a
different name, and the route is stored at the terminal leaf under its
method key (re-registration overwrites, the documented choice of §9).
A wildcard specifier is a configuration error. -/
def RouteTree.insertT : RTree → List PSeg → Method → Route → Except AddErr RTree
  | t, [], m, r => Except.ok (RTree.mk t.literals t.param (setA t.leaf m r))
  | t, PSeg.lit s :: rest, m, r =>
    (match lookupA t.literals s with
     | some child =>
       (RouteTree.insertT child rest m r).map
         (fun c' => RTree.mk (setA t.literals s c') t.param t.leaf)
     | none =>
       (RouteTree.insertT RTree.empty rest m r).map
         (fun c' => RTree.mk (t.literals ++ [(s, c')]) t.param t.leaf))
  | t, PSeg.par n :: rest, m, r =>
    (match t.param with
     | some (n', child) =>
       if n' = n then
         (RouteTree.insertT child rest m r).map
           (fun c' => RTree.mk t.literals (some (n, c')) t.leaf)
       else Except.error AddErr.conflict
     | none =>
       (RouteTree.insertT RTree.empty rest m r).map
         (fun c' => RTree.mk t.literals (some (n, c')) t.leaf))
  | _, PSeg.wild :: _, _, _ => Except.error AddErr.configuration

/-- Modelled from the spec: `RouteTree.js` is not in src.  `addRoute` (§4.3):
a configuration failure when the route has no path or its pattern contains a
wildcard or optional group; otherwise the compiled segments are inserted. -/
def RouteTree.addRoute (t : RTree) (r : Route) : Except AddErr RTree :=
  match r.path with
  | none => Except.error AddErr.configuration
  | some p =>
    if '*' ∈ p ∨ '(' ∈ p then Except.error AddErr.configuration
    else RouteTree.insertT t (compileSegs p) r.method r

/-- Modelled from the spec: `RouteTree.js` is not in src.  The trie walk of
`find` (§4.3): at each position a literal child of the segment's key is
preferred over the parameter slot; the parameter slot captures the segment
under its name; at the terminal segment the leaf is consulted by the
request's method, falling back to the unconstrained key. -/
def RouteTree.findT : RTree → List Str → Method → List (Str × Str) →
    Option (Route × List (Str × Str))
  | t, [], m, params =>
    (match lookupA t.leaf m with
     | some r => some (r, params)
     | none =>
       match lookupA t.leaf Method.all with
       | some r => some (r, params)
       | none => none)
  | t, s :: rest, m, params =>
    (match lookupA t.literals s with
     | some child => RouteTree.findT child rest m params
     | none =>
       match t.param with
       | some (n, child) => RouteTree.findT child rest m (params ++ [(n, s)])
       | none => none)

/-- `RouteTree.find(request)` (§4.3): walk the trie over the request path's
segments; on a full match write the accumulated parameters onto
`request.routeParams` and return the route, otherwise return nothing and
leave the request untouched. -/
def RouteTree.find (t : RTree) (req : Request) : Option Route × Request :=
  match RouteTree.findT t (splitSegs req.path) req.method [] with
  | some (r, ps) => (some r, { req with routeParams := ps })
  | none => (none, req)

/-- `Router.addRoute` (src/unnamed/part_001 lines 50-60): a TypeError when
the route's path matches the SPLAT or OPTIONAL regex (contains `*` or `(`),
thrown before `RouteTree.addRoute` is reached; a route without a path also
raises a TypeError (reading `.match` of undefined).  The error return means
no tree was produced: the route was not inserted. -/
def Router.addRoute (t : RTree) (r : Route) : Except AddErr RTree :=
  match r.path with
  | none => Except.error AddErr.typeError
  | some p =>
    if '*' ∈ p ∨ '(' ∈ p then Except.error AddErr.typeError
    else RouteTree.addRoute t r

/-- `Router.match` (src/unnamed/part_001 lines 73-77; named matchRequest here
because `match` is reserved in Lean): assigns the tree lookup's result to
`request.matchedRoute`; a total function — no match simply leaves the slot
`none`, nothing is thrown. -/
def Router.matchRequest (t : RTree) (req : Request) : Request :=
  let fr := RouteTree.find t req
  { fr.2 with matchedRoute := fr.1 }

/-- `Router.execute` (src/unnamed/part_001 lines 89-96): when
`request.matchedRoute` is non-null its `execute` is invoked with the
request context and its result returned; otherwise nothing is invoked
(`none`).  The response object carries no information the abstracted
handlers consume, so the context is the request. -/
def Router.execute (req : Request) : Option (Bool × Option Nat) :=
  req.matchedRoute.map (fun r => Route.execute r req none)

/-- Modelled from the spec: `App.js` is not in src.  The two route stacks
(§4.4): append-only regular and error route lists. -/
structure App where
  orderedRoutes : List Route
  orderedErrorRoutes : List Route
deriving DecidableEq, Repr

/-- One observed `Route.execute` invocation of a dispatch: the route's id,
the shared request it was handed, the current error carried by its context
(`none` on the regular stack), whether its handler actually ran, and the
failure its settled result propagated (`none` for a resolution). -/
structure Ev where
  rid : Nat
  req : Request
  err : Option Nat
  ranHandler : Bool
  result : Option Nat
deriving DecidableEq, Repr

/-- Modelled from the spec: `App.js` is not in src.  Regular-stack execution
(§4.4 step 3-4): strictly sequential, each route fully settling before the
next starts; the first failure stops the walk and is returned as the error
entering error mode. -/
def App.runRegular : List Route → Request → List Ev × Option Nat
  | [], _ => ([], none)
  | r :: rest, req =>
    let res := Route.execute r req none
    let ev : Ev := ⟨r.rid, req, none, res.1, res.2⟩
    match res.2 with
    | none =>
      let t := App.runRegular rest req
      (ev :: t.1, t.2)
    | some e => ([ev], some e)

/-- Modelled from the spec: `App.js` is not in src.  Error-stack execution
(§4.4 step 5), with the behavior pinned by src/test/App.test.js lines
217-300: each invocation's context carries the current error; a failure
replaces the current error for the rest of the walk; an out-of-scope skip
leaves it unchanged; an in-scope error route that completes absorbs the
error and the remaining error routes are not executed.  Returns the trace
and the error (if any) surviving the whole stack. -/
def App.runError : List Route → Request → Nat → List Ev × Option Nat
  | [], _, e => ([], some e)
  | r :: rest, req, e =>
    let res := Route.execute r req (some e)
    let ev : Ev := ⟨r.rid, req, some e, res.1, res.2⟩
    match res.2 with
    | none => ([ev], none)
    | some e2 =>
      let t := App.runError rest req e2
      (ev :: t.1, t.2)

/-- Outcome of a `processRequest` call: the returned future resolves with
the Response or rejects with an error. -/
inductive PResult where
  | resolved (resp : Response)
  | rejected (e : Nat)
deriving DecidableEq, Repr

/-- Modelled from the spec: `App.js` is not in src.  `processRequest` (§4.4)
on an already-canonicalized Request: run the regular stack against the
fresh Response; with no failure resolve with that Response; on a failure
enter error mode, and (as pinned by src/test/App.test.js lines 217-300)
reject with the surviving error when the whole error stack re-fails,
resolving when some error route absorbed the error. -/
def App.processRequest (app : App) (req : Request) : List Ev × PResult :=
  let reg := App.runRegular app.orderedRoutes req
  match reg.2 with
  | none => (reg.1, PResult.resolved Response.fresh)
  | some e =>
    let er := App.runError app.orderedErrorRoutes req e
    match er.2 with
    | none => (reg.1 ++ er.1, PResult.resolved Response.fresh)
    | some e2 => (reg.1 ++ er.1, PResult.rejected e2)

/-- The first failure produced by the regular stack, outcome only. -/
def App.firstFailure : List Route → Request → Option Nat
  | [], _ => none
  | r :: rest, req =>
    match (Route.execute r req none).2 with
    | none => App.firstFailure rest req
    | some e => some e

/-- The error surviving the error stack when entered with `e`: `none` when
some error route absorbs the current error, otherwise the final replaced
error. -/
def App.surviving : List Route → Request → Nat → Option Nat
  | [], _, e => some e
  | r :: rest, req, e =>
    match (Route.execute r req (some e)).2 with
    | none => none
    | some e2 => App.surviving rest req e2

/-- The masking placeholder of the string renderers
(src/lib/Request.js line 164). -/
def blankedOut : Str := str "**********"

/-- One step of the redaction loop (src/lib/Request.js lines 174-178 and
183-187): a declared key is overwritten with the placeholder on the working
copy only when it is present (non-null) there. -/
def maskStep (m : List (Str × Str)) (k : Str) : List (Str × Str) :=
  if (lookupA m k).isSome then setA m k blankedOut else m

/-- The redaction loop over the declared keys, on a copy of the map. -/
def maskKeys (m : List (Str × Str)) (ks : List Str) : List (Str × Str) :=
  ks.foldl maskStep m

/-- The data rendered into the string by `Request.toString`
(src/lib/Request.js lines 191-196). -/
structure RenderedRequest where
  method : Method
  path : Str
  headers : List (Str × Str)
  body : List (Str × Str)
deriving DecidableEq, Repr

/-- The data rendered into the string by `Response.toString` (pinned by
src/test/Response.test.js lines 175-236). -/
structure RenderedResponse where
  statusCode : Nat
  headers : List (Str × Str)
  body : List (Str × Str)
deriving DecidableEq, Repr

/-- `Request.toString` (src/lib/Request.js lines 161-197): with redaction
active (`hideSensitive`, defaulting to true, and a redaction descriptor
present) the declared header and body keys are blanked on `_.clone` copies
and the copies are rendered; in every other case the underlying maps are
rendered as they are.  The source mutates only the clones, so the embedding
is a pure function of the request. -/
def Request.toString (r : Request) (hideSensitive : Bool) : RenderedRequest :=
  match (if hideSensitive then r.sensitive else none) with
  | none => ⟨r.method, r.path, r.headers, r.body⟩
  | some s =>
    let hs := match s.headers with
      | some ks => maskKeys r.headers ks
      | none => r.headers
    let bd := match s.body with
      | some ks => maskKeys r.body ks
      | none => r.body
    ⟨r.method, r.path, hs, bd⟩

/-- Modelled from the spec: `Response.js` is not in src.  `Response.toString`
carries the same redaction/string-rendering contract as Request (§6),
including the flag that disables redaction, over statusCode, headers and
the body's key/value view (src/test/Response.test.js lines 175-236). -/
def Response.toString (r : Response) (hideSensitive : Bool) : RenderedResponse :=
  match (if hideSensitive then r.sensitive else none) with
  | none => ⟨r.statusCode, r.headers, r.body⟩
  | some s =>
    let hs := match s.headers with
      | some ks => maskKeys r.headers ks
      | none => r.headers
    let bd := match s.body with
      | some ks => maskKeys r.body ks
      | none => r.body
    ⟨r.statusCode, hs, bd⟩

/-- No wildcard specifier among compiled segments: the "only literal and
parameter segments" condition of a deterministic route. -/
def noWildB : List PSeg → Bool
  | [] => true
  | PSeg.wild :: _ => false
  | _ :: rest => noWildB rest

/-- The compiled segments can be inserted into the tree without meeting a
conflicting parameter name at any existing position (§4.3's conflict
failure). -/
def noConflictB : RTree → List PSeg → Bool
  | _, [] => true
  | t, PSeg.lit s :: rest =>
    (match lookupA t.literals s with
     | some c => noConflictB c rest
     | none => true)
  | t, PSeg.par n :: rest =>
    (match t.param with
     | some (n', c) => n' == n && noConflictB c rest
     | none => true)
  | _, PSeg.wild :: _ => false

/-- A concrete request with path `/a` and method get, as in the
processRequest tests (src/test/App.test.js lines 121-126). -/
def reqA : Request := Request.build ⟨str "/a", none, Method.get, []⟩

/-- A concrete unscoped route whose handler completes. -/
def okRoute (i : Nat) : Route := ⟨i, Method.all, none, Outcome.ok⟩

/-- A concrete unscoped route whose handler fails with error `e`. -/
def failRoute (i e : Nat) : Route := ⟨i, Method.all, none, Outcome.err e⟩

/-- A concrete route scoped to get `/a/b/c`, the out-of-scope error
middleware of src/test/App.test.js lines 269-287. -/
def scopedRoute (i : Nat) : Route := ⟨i, Method.get, some (str "/a/b/c"), Outcome.ok⟩

/-- C8: a Request constructed with a path string stores the normalized form
while `originalPath` keeps the pre-normalization input, and reassigning the
path later never changes `originalPath` (src/lib/Request.js lines 36-43,
84-89; the setter has no originalPath write, and `_originalPath` has no
setter — assignment throws). -/
theorem Request.build_normalizes (o : ReqOptions) (p2 : Str)
    (h : o.originalPath = none) :
    (Request.build o).path = normalizePath o.path ∧
    (Request.build o).originalPath = o.path ∧
    (Request.setPath (Request.build o) p2).originalPath = o.path ∧
    (Request.setPath (Request.build o) p2).path = normalizePath p2 := by
  simp [Request.build, Request.setPath, h]

/-- The C8 theorem at the spec's §8 scenario: constructing with `/WoNkY/`
yields path `/wonky`, originalPath `/WoNkY/`, and a later reassignment of
the path leaves originalPath at `/WoNkY/`. -/
theorem Request.build_normalizes_witness :
    ((Request.build ⟨str "/WoNkY/", none, Method.get, []⟩).path =
        normalizePath (str "/WoNkY/") ∧
      (Request.build ⟨str "/WoNkY/", none, Method.get, []⟩).originalPath =
        str "/WoNkY/" ∧
      (Request.setPath (Request.build ⟨str "/WoNkY/", none, Method.get, []⟩)
          (str "/a/b/c")).originalPath = str "/WoNkY/" ∧
      (Request.setPath (Request.build ⟨str "/WoNkY/", none, Method.get, []⟩)
          (str "/a/b/c")).path = normalizePath (str "/a/b/c")) ∧
    normalizePath (str "/WoNkY/") = str "/wonky" :=
  ⟨Request.build_normalizes ⟨str "/WoNkY/", none, Method.get, []⟩ (str "/a/b/c") rfl,
   by decide⟩

/-- C4: an out-of-scope Route resolves without invoking its handler — a
skip, not a failure — and when that happens on the error stack the current
error reaches the remaining error routes unchanged (§4.2, §4.4 step 5;
src/test/App.test.js lines 269-287). -/
theorem Route.scoped_skip (r : Route) (req : Request) (e : Nat)
    (rest : List Route) (h : r.inScope req = false) :
    Route.execute r req none = (false, none) ∧
    App.runError (r :: rest) req e =
      (⟨r.rid, req, some e, false, some e⟩ :: (App.runError rest req e).1,
       (App.runError rest req e).2) := by
  constructor
  · simp [Route.execute, h]
  · simp [App.runError, Route.execute, h]

/-- The C4 theorem at the configuration of src/test/App.test.js lines
269-287: the error route scoped to get `/a/b/c` skips on the `/a` request
and hands the same error 7 to the rest of the error stack. -/
theorem Route.scoped_skip_witness :
    Route.execute (scopedRoute 11) reqA none = (false, none) ∧
    App.runError (scopedRoute 11 :: [okRoute 12]) reqA 7 =
      (⟨11, reqA, some 7, false, some 7⟩ :: (App.runError [okRoute 12] reqA 7).1,
       (App.runError [okRoute 12] reqA 7).2) :=
  Route.scoped_skip (scopedRoute 11) reqA 7 [okRoute 12] (by decide)

/-- Regular-stack execution where no route fails: the trace is one event per
route, in order, each carrying the shared request and no error, and no
failure is produced. -/
theorem App.runRegular_allOk (rs : List Route) (req : Request)
    (h : ∀ r ∈ rs, (Route.execute r req none).2 = none) :
    App.runRegular rs req =
      (rs.map (fun r => ⟨r.rid, req, none, (Route.execute r req none).1, none⟩),
       none) := by
  induction rs with
  | nil => simp [App.runRegular]
  | cons r rest ih =>
    have hr := h r (List.mem_cons_self r rest)
    have hrest := ih (fun x hx => h x (List.mem_cons_of_mem r hx))
    simp [App.runRegular, hr, hrest]

/-- C6: with regular routes none of which fails, `processRequest` resolves
with the freshly constructed Response, each regular route's execute runs
exactly once, in declaration order, with the shared request, and no error
route is ever executed (§4.4; src/test/App.test.js lines 183-215). -/
theorem App.processRequest_allOk (app : App) (req : Request)
    (h : ∀ r ∈ app.orderedRoutes, (Route.execute r req none).2 = none) :
    App.processRequest app req =
      (app.orderedRoutes.map
        (fun r => ⟨r.rid, req, none, (Route.execute r req none).1, none⟩),
       PResult.resolved Response.fresh) := by
  simp [App.processRequest, App.runRegular_allOk app.orderedRoutes req h]

/-- The C6 theorem at two completing middleware, the configuration of
src/test/App.test.js lines 183-192: both run once, in order, and the call
resolves with the fresh Response. -/
theorem App.processRequest_allOk_witness :
    App.processRequest ⟨[okRoute 1, okRoute 2], [okRoute 11, okRoute 12]⟩ reqA =
      ([okRoute 1, okRoute 2].map
        (fun r => ⟨r.rid, reqA, none, (Route.execute r reqA none).1, none⟩),
       PResult.resolved Response.fresh) :=
  App.processRequest_allOk ⟨[okRoute 1, okRoute 2], [okRoute 11, okRoute 12]⟩ reqA
    (by decide)

/-- Regular-stack execution up to the first failing route: the completing
prefix runs in order, the failing route's event closes the trace, and its
error is produced; nothing after the failure executes. -/
theorem App.runRegular_firstFail (pre : List Route) (post : List Route)
    (rf : Route) (req : Request) (e : Nat)
    (hpre : ∀ r ∈ pre, (Route.execute r req none).2 = none)
    (hf : Route.execute rf req none = (true, some e)) :
    App.runRegular (pre ++ rf :: post) req =
      (pre.map (fun r => ⟨r.rid, req, none, (Route.execute r req none).1, none⟩)
        ++ [⟨rf.rid, req, none, true, some e⟩], some e) := by
  induction pre with
  | nil => simp [App.runRegular, hf]
  | cons r rest ih =>
    have hr := hpre r (List.mem_cons_self r rest)
    have hrest := ih (fun x hx => hpre x (List.mem_cons_of_mem r hx))
    simp [App.runRegular, hr, hrest]


/-- C2: when regular route `rf` is the first to fail, the routes after it
never execute — the dispatch trace is exactly the completing prefix, the
failing route's event, then the error-stack trace — and the error stack is
entered starting from its first route in declaration order, whose context
carries the failure as the current error; no error event precedes the
failure (§4.4 steps 3-5; src/test/App.test.js lines 194-202, 217-226). -/
theorem App.processRequest_firstFail (app : App) (req : Request)
    (pre post : List Route) (rf : Route) (e : Nat)
    (hsplit : app.orderedRoutes = pre ++ rf :: post)
    (hpre : ∀ r ∈ pre, (Route.execute r req none).2 = none)
    (hf : Route.execute rf req none = (true, some e)) :
    (App.processRequest app req).1 =
      pre.map (fun r => ⟨r.rid, req, none, (Route.execute r req none).1, none⟩)
        ++ ⟨rf.rid, req, none, true, some e⟩
          :: (App.runError app.orderedErrorRoutes req e).1 ∧
    ∀ er rest, app.orderedErrorRoutes = er :: rest →
      ∃ tl, (App.runError app.orderedErrorRoutes req e).1 =
        ⟨er.rid, req, some e, (Route.execute er req (some e)).1,
          (Route.execute er req (some e)).2⟩ :: tl := by
  have hreg := App.runRegular_firstFail pre post rf req e hpre hf
  constructor
  · rw [App.processRequest, hsplit, hreg]
    cases her : (App.runError app.orderedErrorRoutes req e).2 <;> simp [her]
  · intro er rest hes
    rw [hes, App.runError]
    cases hres : (Route.execute er req (some e)).2 with
    | none => exact ⟨[], by simp [hres]⟩
    | some e2 => exact ⟨(App.runError rest req e2).1, by simp [hres]⟩

/-- The C2 theorem at the bail configuration of src/test/App.test.js lines
217-226: the first middleware fails with error 7, the second never runs,
and the first error middleware is entered with error 7 in its context. -/
theorem App.processRequest_firstFail_witness :
    (App.processRequest ⟨[failRoute 1 7, okRoute 2], [okRoute 11, okRoute 12]⟩ reqA).1 =
      ([] : List Route).map
          (fun r => ⟨r.rid, reqA, none, (Route.execute r reqA none).1, none⟩)
        ++ ⟨1, reqA, none, true, some 7⟩
          :: (App.runError [okRoute 11, okRoute 12] reqA 7).1 ∧
    ∀ er rest, ([okRoute 11, okRoute 12] : List Route) = er :: rest →
      ∃ tl, (App.runError [okRoute 11, okRoute 12] reqA 7).1 =
        ⟨er.rid, reqA, some 7, (Route.execute er reqA (some 7)).1,
          (Route.execute er reqA (some 7)).2⟩ :: tl :=
  App.processRequest_firstFail ⟨[failRoute 1 7, okRoute 2], [okRoute 11, okRoute 12]⟩
    reqA [] [okRoute 2] (failRoute 1 7) 7 rfl (by decide) (by decide)

/-- The first event of a nonempty error-stack trace carries the error the
stack was entered with. -/
theorem App.runError_head (es : List Route) (req : Request) (e0 : Nat)
    (ev : Ev) (tl : List Ev) (h : (App.runError es req e0).1 = ev :: tl) :
    ev.err = some e0 := by
  cases es with
  | nil => simp [App.runError] at h
  | cons r rest =>
    cases hres : (Route.execute r req (some e0)).2 <;>
      simp [App.runError, hres] at h <;>
      simp [← h.1]

/-- Consecutive error-stack events relate by replacement: the later event's
context error is exactly the failure the earlier event settled with. -/
theorem App.runError_chain (es : List Route) (req : Request) : ∀ (e0 : Nat)
    (pre : List Ev) (a b : Ev) (post : List Ev),
    (App.runError es req e0).1 = pre ++ a :: b :: post → b.err = a.result := by
  induction es with
  | nil =>
    intro e0 pre a b post h
    simp [App.runError] at h
  | cons r rest ih =>
    intro e0 pre a b post h
    cases hres : (Route.execute r req (some e0)).2 with
    | none =>
      simp [App.runError, hres] at h
      have hl := congrArg List.length h
      simp at hl
      omega
    | some e2 =>
      simp [App.runError, hres] at h
      cases pre with
      | nil =>
        simp at h
        have hb := App.runError_head rest req e2 b post h.2
        rw [hb, ← h.1]
      | cons p pre' =>
        simp at h
        exact ih e2 pre' a b post h.2

/-- C3: each executed error route receives the current error in its context
— the stack is entered with the original failure, and every consecutive
pair of error events shows the later context carrying exactly what the
earlier invocation settled with, so a failing error route's error replaces
the current error for everything after it (never joining it), while a skip
passes it through unchanged (§4.4 step 5; src/test/App.test.js lines
228-240, 254-267). -/
theorem App.runError_error_propagation (es : List Route) (req : Request)
    (e0 : Nat) :
    (∀ ev tl, (App.runError es req e0).1 = ev :: tl → ev.err = some e0) ∧
    (∀ pre a b post, (App.runError es req e0).1 = pre ++ a :: b :: post →
      b.err = a.result) :=
  ⟨fun ev tl h => App.runError_head es req e0 ev tl h,
   fun pre a b post h => App.runError_chain es req e0 pre a b post h⟩

/-- The C3 theorem at the propagate-down configuration of
src/test/App.test.js lines 228-240: entered with error 7, the first error
middleware fails with error 8, and the second error middleware's context
carries exactly that replaced error. -/
theorem App.runError_error_propagation_witness :
    (⟨11, reqA, some 7, true, some 8⟩ : Ev).err = some 7 ∧
    (⟨12, reqA, some 8, true, none⟩ : Ev).err =
      (⟨11, reqA, some 7, true, some 8⟩ : Ev).result :=
  ⟨(App.runError_error_propagation [failRoute 11 8, okRoute 12] reqA 7).1
      ⟨11, reqA, some 7, true, some 8⟩ [⟨12, reqA, some 8, true, none⟩] (by decide),
   (App.runError_error_propagation [failRoute 11 8, okRoute 12] reqA 7).2
      [] ⟨11, reqA, some 7, true, some 8⟩ ⟨12, reqA, some 8, true, none⟩ [] (by decide)⟩

/-- The failure produced by the regular stack is the first failure of its
routes. -/
theorem App.runRegular_snd (rs : List Route) (req : Request) :
    (App.runRegular rs req).2 = App.firstFailure rs req := by
  induction rs with
  | nil => simp [App.runRegular, App.firstFailure]
  | cons r rest ih =>
    cases hres : (Route.execute r req none).2 <;>
      simp [App.runRegular, App.firstFailure, hres, ih]

/-- The failure left by the error stack is the surviving error of the
replacement walk. -/
theorem App.runError_snd (es : List Route) (req : Request) : ∀ e : Nat,
    (App.runError es req e).2 = App.surviving es req e := by
  induction es with
  | nil => intro e; simp [App.runError, App.surviving]
  | cons r rest ih =>
    intro e
    cases hres : (Route.execute r req (some e)).2 <;>
      simp [App.runError, App.surviving, hres, ih]

/-- C1 counterexample: the claim says a `processRequest` call in which a
regular route failed must reject regardless of whether the error routes
re-fail.  In the configuration of src/test/App.test.js lines 217-226 —
one regular route failing with error 7, one error route that completes —
error mode is entered, yet the call resolves with the fresh Response. -/
theorem App.processRequest_reject_counterexample :
    App.firstFailure [failRoute 1 7] reqA = some 7 ∧
    (App.processRequest ⟨[failRoute 1 7], [okRoute 11]⟩ reqA).2 =
      PResult.resolved Response.fresh := by
  constructor <;> rfl

/-- C1 amended: every `processRequest` call has exactly one terminal
outcome, fixed by the two stacks — it resolves with the Response when no
regular route fails; when error mode is entered with the first failure, it
rejects with the surviving error exactly when every executed error route
re-fails or is skipped, and resolves with the Response when some in-scope
error route completes and absorbs the error (src/test/App.test.js lines
204-300). -/
theorem App.processRequest_outcome (app : App) (req : Request) :
    (App.processRequest app req).2 =
      match App.firstFailure app.orderedRoutes req with
      | none => PResult.resolved Response.fresh
      | some e =>
        match App.surviving app.orderedErrorRoutes req e with
        | none => PResult.resolved Response.fresh
        | some e2 => PResult.rejected e2 := by
  cases hreg : App.firstFailure app.orderedRoutes req with
  | none => simp [App.processRequest, App.runRegular_snd, hreg]
  | some e =>
    cases hsur : App.surviving app.orderedErrorRoutes req e <;>
      simp [App.processRequest, App.runRegular_snd, App.runError_snd, hreg, hsur]

/-- A character of a produced path segment comes from the split input or
from the accumulator. -/
theorem splitSegsAux_mem (c : Char) : ∀ (l acc seg : Str),
    seg ∈ splitSegsAux l acc → c ∈ seg → c ∈ l ∨ c ∈ acc := by
  intro l
  induction l with
  | nil =>
    intro acc seg hseg hc
    by_cases ha : acc = []
    · simp [splitSegsAux, ha] at hseg
    · simp [splitSegsAux, ha] at hseg
      subst hseg
      right
      simpa using hc
  | cons d rest ih =>
    intro acc seg hseg hc
    by_cases hd : d = '/'
    · by_cases ha : acc = []
      · simp [splitSegsAux, hd, ha] at hseg
        rcases ih [] seg hseg hc with h | h
        · exact Or.inl (List.mem_cons_of_mem d h)
        · simp at h
      · simp [splitSegsAux, hd, ha] at hseg
        rcases hseg with h | h
        · subst h
          right
          simpa using hc
        · rcases ih [] seg h hc with h2 | h2
          · exact Or.inl (List.mem_cons_of_mem d h2)
          · simp at h2
    · simp [splitSegsAux, hd] at hseg
      rcases ih (d :: acc) seg hseg hc with h | h
      · exact Or.inl (List.mem_cons_of_mem d h)
      · rcases List.mem_cons.mp h with h2 | h2
        · subst h2
          exact Or.inl (List.mem_cons_self c rest)
        · exact Or.inr h2

/-- Segment classification over a list none of whose members classifies as a
wildcard yields wildcard-free specifiers. -/
theorem noWildB_map (l : List Str) (h : ∀ s ∈ l, segSpec s ≠ PSeg.wild) :
    noWildB (l.map segSpec) = true := by
  induction l with
  | nil => rfl
  | cons sg rest ih =>
    have hsg := h sg (List.mem_cons_self sg rest)
    have hrest := ih (fun s hs => h s (List.mem_cons_of_mem sg hs))
    cases hcase : segSpec sg <;> simp [hcase] at hsg ⊢ <;>
      simpa [noWildB] using hrest

/-- A path without the `*` character compiles to specifiers without a
wildcard: its segments are only literals and parameters. -/
theorem compileSegs_noWild (p : Str) (h : '*' ∉ p) :
    noWildB (compileSegs p) = true := by
  rw [compileSegs]
  refine noWildB_map (splitSegs p) ?_
  intro seg hseg hw
  by_cases h1 : seg = ['*']
  · rcases splitSegsAux_mem '*' p [] seg hseg (by simp [h1]) with h2 | h2
    · exact h h2
    · simp at h2
  · by_cases h2 : seg.head? = some ':'
    · simp [segSpec, h1, h2] at hw
    · simp [segSpec, h1, h2] at hw

/-- Inserting wildcard-free specifiers into a fresh node always succeeds:
newly created chains cannot conflict. -/
theorem RouteTree.insertT_fresh : ∀ (segs : List PSeg) (m : Method) (r : Route),
    noWildB segs = true →
    ∃ t', RouteTree.insertT RTree.empty segs m r = Except.ok t' := by
  intro segs
  induction segs with
  | nil => intro m r _; exact ⟨_, rfl⟩
  | cons sg rest ih =>
    intro m r h
    cases sg with
    | lit s =>
      obtain ⟨t', ht'⟩ := ih m r (by simpa [noWildB] using h)
      have ht2 : RouteTree.insertT (RTree.mk [] none []) rest m r = Except.ok t' := ht'
      exact ⟨RTree.mk [(s, t')] none [], by simp [RouteTree.insertT, RTree.empty,
        RTree.literals, RTree.param, RTree.leaf, lookupA, ht2, Except.map]⟩
    | par n =>
      obtain ⟨t', ht'⟩ := ih m r (by simpa [noWildB] using h)
      have ht2 : RouteTree.insertT (RTree.mk [] none []) rest m r = Except.ok t' := ht'
      exact ⟨RTree.mk [] (some (n, t')) [], by simp [RouteTree.insertT, RTree.empty,
        RTree.literals, RTree.param, RTree.leaf, ht2, Except.map]⟩
    | wild => simp [noWildB] at h

/-- Inserting wildcard-free specifiers that meet no conflicting parameter
name succeeds on any tree. -/
theorem RouteTree.insertT_noConflict : ∀ (segs : List PSeg) (t : RTree)
    (m : Method) (r : Route),
    noWildB segs = true → noConflictB t segs = true →
    ∃ t', RouteTree.insertT t segs m r = Except.ok t' := by
  intro segs
  induction segs with
  | nil => intro t m r _ _; exact ⟨_, rfl⟩
  | cons sg rest ih =>
    intro t m r hw hc
    cases sg with
    | lit s =>
      have hwr : noWildB rest = true := by simpa [noWildB] using hw
      cases hls : lookupA t.literals s with
      | some child =>
        have hcr : noConflictB child rest = true := by
          simpa [noConflictB, hls] using hc
        obtain ⟨t', ht'⟩ := ih child m r hwr hcr
        exact ⟨RTree.mk (setA t.literals s t') t.param t.leaf,
          by simp [RouteTree.insertT, hls, ht', Except.map]⟩
      | none =>
        obtain ⟨t', ht'⟩ := RouteTree.insertT_fresh rest m r hwr
        exact ⟨RTree.mk (t.literals ++ [(s, t')]) t.param t.leaf,
          by simp [RouteTree.insertT, hls, ht', Except.map]⟩
    | par n =>
      have hwr : noWildB rest = true := by simpa [noWildB] using hw
      cases hpo : t.param with
      | some pr =>
        obtain ⟨n', child⟩ := pr
        have hcc : n' = n ∧ noConflictB child rest = true := by
          simpa [noConflictB, hpo] using hc
        obtain ⟨t', ht'⟩ := ih child m r hwr hcc.2
        exact ⟨RTree.mk t.literals (some (n, t')) t.leaf,
          by simp [RouteTree.insertT, hpo, hcc.1, ht', Except.map]⟩
      | none =>
        obtain ⟨t', ht'⟩ := RouteTree.insertT_fresh rest m r hwr
        exact ⟨RTree.mk t.literals (some (n, t')) t.leaf,
          by simp [RouteTree.insertT, hpo, ht', Except.map]⟩
    | wild => simp [noWildB] at hw

/-- C5 amended: `Router.addRoute` throws a TypeError synchronously for a
route whose path contains a wildcard `*` or an optional group `(`, before
any insertion — no tree is produced — while a route whose path compiles to
only literal and parameter segments is inserted into the RouteTree without
error provided it meets no conflicting parameter name at an existing tree
position (src/unnamed/part_001 lines 50-60; §4.3). -/
theorem Router.addRoute_validation (t : RTree) (r : Route) (p : Str)
    (hp : r.path = some p) :
    (('*' ∈ p ∨ '(' ∈ p) → Router.addRoute t r = Except.error AddErr.typeError) ∧
    ('*' ∉ p → '(' ∉ p → noConflictB t (compileSegs p) = true →
      ∃ t', Router.addRoute t r = Except.ok t') := by
  constructor
  · intro h
    simp [Router.addRoute, hp, h]
  · intro h1 h2 hc
    obtain ⟨t', ht'⟩ := RouteTree.insertT_noConflict (compileSegs p) t r.method r
      (compileSegs_noWild p h1) hc
    exact ⟨t', by simp [Router.addRoute, RouteTree.addRoute, hp, h1, h2, ht']⟩

/-- The C5 theorem at concrete configurations: the splat path `/a/*` is
rejected with a TypeError at registration, while the deterministic path
`/a/:b` registers into the empty tree without error. -/
theorem Router.addRoute_validation_witness :
    Router.addRoute RTree.empty ⟨1, Method.get, some (str "/a/*"), Outcome.ok⟩ =
      Except.error AddErr.typeError ∧
    ∃ t', Router.addRoute RTree.empty ⟨2, Method.get, some (str "/a/:b"), Outcome.ok⟩ =
      Except.ok t' :=
  ⟨(Router.addRoute_validation RTree.empty ⟨1, Method.get, some (str "/a/*"), Outcome.ok⟩
      (str "/a/*") rfl).1 (by decide),
   (Router.addRoute_validation RTree.empty ⟨2, Method.get, some (str "/a/:b"), Outcome.ok⟩
      (str "/a/:b") rfl).2 (by decide) (by decide) (by decide)⟩

/-- C7: a RouteTree holding a literal route and a parameter route at the
same position resolves a request whose segment equals the literal to the
literal route — the literal child is preferred over the parameter slot —
whichever order the two routes were registered in (§4.3; the
`/users/new` versus `/users/:id` precedence). -/
theorem RouteTree.literal_over_param (u v pn : Str) (m : Method)
    (rL rP : Route) :
    (∃ t1 t2,
      RouteTree.insertT RTree.empty [PSeg.lit u, PSeg.lit v] m rL = Except.ok t1 ∧
      RouteTree.insertT t1 [PSeg.lit u, PSeg.par pn] m rP = Except.ok t2 ∧
      RouteTree.findT t2 [u, v] m [] = some (rL, [])) ∧
    (∃ t1 t2,
      RouteTree.insertT RTree.empty [PSeg.lit u, PSeg.par pn] m rP = Except.ok t1 ∧
      RouteTree.insertT t1 [PSeg.lit u, PSeg.lit v] m rL = Except.ok t2 ∧
      RouteTree.findT t2 [u, v] m [] = some (rL, [])) := by
  constructor
  · refine ⟨RTree.mk [(u, RTree.mk [(v, RTree.mk [] none [(m, rL)])] none [])] none [],
      RTree.mk [(u, RTree.mk [(v, RTree.mk [] none [(m, rL)])]
        (some (pn, RTree.mk [] none [(m, rP)])) [])] none [], ?_, ?_, ?_⟩
    · simp [RouteTree.insertT, RTree.empty, RTree.literals, RTree.param, RTree.leaf,
        lookupA, setA, Except.map]
    · simp [RouteTree.insertT, RTree.empty, RTree.literals, RTree.param, RTree.leaf,
        lookupA, setA, Except.map]
    · simp [RouteTree.findT, RTree.literals, RTree.param, RTree.leaf, lookupA]
  · refine ⟨RTree.mk [(u, RTree.mk [] (some (pn, RTree.mk [] none [(m, rP)])) [])] none [],
      RTree.mk [(u, RTree.mk [(v, RTree.mk [] none [(m, rL)])]
        (some (pn, RTree.mk [] none [(m, rP)])) [])] none [], ?_, ?_, ?_⟩
    · simp [RouteTree.insertT, RTree.empty, RTree.literals, RTree.param, RTree.leaf,
        lookupA, setA, Except.map]
    · simp [RouteTree.insertT, RTree.empty, RTree.literals, RTree.param, RTree.leaf,
        lookupA, setA, Except.map]
    · simp [RouteTree.findT, RTree.literals, RTree.param, RTree.leaf, lookupA]

/-- Lookup after an association-list write: the written key reads the new
value, every other key is untouched. -/
theorem lookupA_setA (m : List (Str × Str)) (k0 k v : Str) :
    lookupA (setA m k0 v) k = if k0 = k then some v else lookupA m k := by
  induction m with
  | nil => by_cases h : k0 = k <;> simp [setA, lookupA, h]
  | cons kv rest ih =>
    obtain ⟨k', v'⟩ := kv
    by_cases h : k' = k0
    · subst h
      by_cases hk : k' = k <;> simp [setA, lookupA, hk, ih]
    · by_cases hk : k' = k
      · subst hk
        have hne : ¬(k0 = k') := fun hh => h hh.symm
        simp [setA, h, lookupA, hne]
      · simp [setA, h, lookupA, hk, ih]

/-- Lookup after one redaction step: exactly the present declared key reads
the placeholder. -/
theorem lookupA_maskStep (m : List (Str × Str)) (k0 k : Str) :
    lookupA (maskStep m k0) k =
      if k0 = k ∧ (lookupA m k).isSome then some blankedOut
      else lookupA m k := by
  rw [maskStep]
  by_cases h : (lookupA m k0).isSome
  · rw [if_pos h, lookupA_setA]
    by_cases hk : k0 = k
    · subst hk
      simp [h]
    · simp [hk]
  · rw [if_neg h]
    by_cases hk : k0 = k
    · subst hk
      simp [h]
    · simp [hk]

/-- Lookup after the whole redaction loop: exactly the present declared
keys read the placeholder, every other entry reads its original value. -/
theorem lookupA_maskKeys (ks : List Str) : ∀ (m : List (Str × Str)) (k : Str),
    lookupA (maskKeys m ks) k =
      if k ∈ ks ∧ (lookupA m k).isSome then some blankedOut
      else lookupA m k := by
  induction ks with
  | nil => intro m k; simp [maskKeys]
  | cons k0 ks ih =>
    intro m k
    have hstep : maskKeys m (k0 :: ks) = maskKeys (maskStep m k0) ks := rfl
    rw [hstep, ih, lookupA_maskStep]
    by_cases h1 : k0 = k
    · subst h1
      by_cases h2 : (lookupA m k0).isSome <;> by_cases h3 : k0 ∈ ks <;>
        simp [h2, h3]
    · have h1' : ¬(k = k0) := fun hh => h1 hh.symm
      by_cases h2 : (lookupA m k).isSome <;> by_cases h3 : k ∈ ks <;>
        simp [h1, h1', h2, h3]

/-- C9: rendering a Request or Response to string with a redaction
descriptor masks exactly the declared header and body keys — a declared key
present in the map renders as the placeholder, every other entry renders
with its original value — while rendering with `hideSensitive` false
produces the unmasked values; the renderers are functions of the object
(the source blanks only `_.clone` copies), so the underlying header map and
body value are left unmodified (src/lib/Request.js lines 161-197;
src/test/Response.test.js lines 182-236). -/
theorem Request.toString_redaction (r : Request) (resp : Response)
    (hks bks : List Str) (k : Str) :
    Request.toString r false = ⟨r.method, r.path, r.headers, r.body⟩ ∧
    Response.toString resp false = ⟨resp.statusCode, resp.headers, resp.body⟩ ∧
    (r.sensitive = some ⟨some hks, some bks⟩ →
      lookupA (Request.toString r true).headers k =
        (if k ∈ hks ∧ (lookupA r.headers k).isSome then some blankedOut
         else lookupA r.headers k) ∧
      lookupA (Request.toString r true).body k =
        (if k ∈ bks ∧ (lookupA r.body k).isSome then some blankedOut
         else lookupA r.body k)) ∧
    (resp.sensitive = some ⟨some hks, some bks⟩ →
      lookupA (Response.toString resp true).headers k =
        (if k ∈ hks ∧ (lookupA resp.headers k).isSome then some blankedOut
         else lookupA resp.headers k) ∧
      lookupA (Response.toString resp true).body k =
        (if k ∈ bks ∧ (lookupA resp.body k).isSome then some blankedOut
         else lookupA resp.body k)) := by
  refine ⟨by simp [Request.toString], by simp [Response.toString], ?_, ?_⟩
  · intro h
    constructor <;> simp [Request.toString, h, lookupA_maskKeys]
  · intro h
    constructor <;> simp [Response.toString, h, lookupA_maskKeys]

/-- The C9 theorem at the sensitive-response configuration of
src/test/Response.test.js lines 182-194 and a matching request: the
declared `authorization` header renders blanked, the undeclared `user` body
key renders with its original value. -/
theorem Request.toString_redaction_witness :
    lookupA (Request.toString
      { reqA with headers := [(str "authorization", str "abc")],
                  sensitive := some ⟨some [str "authorization"], some [str "password"]⟩ }
      true).headers (str "authorization") = some blankedOut ∧
    lookupA (Response.toString
      { Response.fresh with
          headers := [(str "authorization", str "abc")],
          body := [(str "user", str "bob"), (str "password", str "1234")],
          sensitive := some ⟨some [str "authorization"], some [str "password"]⟩ }
      true).body (str "user") = some (str "bob") := by
  constructor
  · rw [((Request.toString_redaction
      { reqA with headers := [(str "authorization", str "abc")],
                  sensitive := some ⟨some [str "authorization"], some [str "password"]⟩ }
      Response.fresh [str "authorization"] [str "password"]
      (str "authorization")).2.2.1 rfl).1]
    decide
  · rw [((Request.toString_redaction reqA
      { Response.fresh with
          headers := [(str "authorization", str "abc")],
          body := [(str "user", str "bob"), (str "password", str "1234")],
          sensitive := some ⟨some [str "authorization"], some [str "password"]⟩ }
      [str "authorization"] [str "password"] (str "user")).2.2.2 rfl).2]
    decide

/-- C10: with no matching route in the tree, `Router.match` completes — it
is total, nothing is thrown — leaving `request.matchedRoute` empty, and
`Router.execute` then invokes no handler; in general `Router.execute`
invokes the matched route's execute with the request context exactly when
`matchedRoute` is non-null (src/unnamed/part_001 lines 73-77, 89-96). -/
theorem Router.match_execute (t : RTree) (req : Request) (r : Route) :
    ((RouteTree.find t req).1 = none →
      (Router.matchRequest t req).matchedRoute = none ∧
      Router.execute (Router.matchRequest t req) = none) ∧
    (∀ q : Request, (Router.execute q).isSome ↔ q.matchedRoute.isSome) ∧
    (req.matchedRoute = some r →
      Router.execute req = some (Route.execute r req none)) := by
  refine ⟨?_, ?_, ?_⟩
  · intro h
    constructor <;> simp [Router.matchRequest, Router.execute, h]
  · intro q
    simp [Router.execute]
  · intro h
    simp [Router.execute, h]

/-- The C10 theorem at an empty tree and the `/a` request: the match
middleware leaves `matchedRoute` empty and the execute middleware does
nothing; with a matched route planted on the request, the execute
middleware invokes exactly that route. -/
theorem Router.match_execute_witness :
    ((Router.matchRequest RTree.empty reqA).matchedRoute = none ∧
      Router.execute (Router.matchRequest RTree.empty reqA) = none) ∧
    Router.execute { reqA with matchedRoute := some (okRoute 1) } =
      some (Route.execute (okRoute 1) { reqA with matchedRoute := some (okRoute 1) } none) :=
  ⟨(Router.match_execute RTree.empty reqA (okRoute 1)).1 (by decide),
   (Router.match_execute RTree.empty { reqA with matchedRoute := some (okRoute 1) }
     (okRoute 1)).2.2 rfl⟩

/-- C5 counterexample: the unconditional reading — every route with only
literal and parameter segments is inserted without error — fails.  The path
`/a/:y` contains neither `*` nor `(`, yet registering it after `/a/:x`
fails with §4.3's conflicting-parameter-name configuration error: the tree
position already carries the parameter slot `x`. -/
theorem Router.addRoute_conflict_counterexample :
    Router.addRoute RTree.empty ⟨1, Method.get, some (str "/a/:x"), Outcome.ok⟩ =
      Except.ok (RTree.mk [(str "a", RTree.mk []
        (some (str "x", RTree.mk [] none
          [(Method.get, ⟨1, Method.get, some (str "/a/:x"), Outcome.ok⟩)])) [])]
        none []) ∧
    Router.addRoute (RTree.mk [(str "a", RTree.mk []
        (some (str "x", RTree.mk [] none
          [(Method.get, ⟨1, Method.get, some (str "/a/:x"), Outcome.ok⟩)])) [])]
        none [])
      ⟨2, Method.get, some (str "/a/:y"), Outcome.ok⟩ =
        Except.error AddErr.conflict ∧
    '*' ∉ str "/a/:y" ∧ '(' ∉ str "/a/:y" :=
  ⟨rfl, rfl, by decide, by decide⟩
